import Mathlib

/-
Verification of the kill-switch orchestrator (protonvpn/services/killswitch_manager.py).

Part 1 embeds the route-exclusion computation used by create_routed_connection:
list(ip_network(U).address_exclude(ip_network(H))) from the Python ipaddress
library, specialised to IPv4 (32-bit addresses).  A network is a pair of a
network address and a prefix length; the generator address_exclude is embedded
as a fuel-indexed recursion whose fuel is shown to be sufficient on all valid
inputs.

Part 2 embeds the KillSwitchManager state machine: the in-memory interface
state tracker, its refresh loop update_connection_status, the guarded
create/activate/deactivate/delete operations, run_subprocess, and the manage
dispatcher, against an explicit model of the external network-configuration
service state.
-/

/-- An IPv4 network as the Python ipaddress library represents it: a network
address (an integer) together with a prefix length.  ip_network normalises its
input to this form. -/
structure Net where
  addr : Nat
  plen : Nat
deriving DecidableEq, Repr

/-- Number of addresses in the block: 2 ^ (32 - prefixlen). -/
def Net.size (n : Net) : Nat := 2 ^ (32 - n.plen)

/-- IPv4Network.broadcast_address as an integer. -/
def Net.broadcast (n : Net) : Nat := n.addr + n.size - 1

/-- A well-formed IPv4 network: prefix length at most 32, network address
aligned to the block size (ip_network with strict=True rejects host bits), and
the block inside the 32-bit address space. -/
def Net.Valid (n : Net) : Prop :=
  n.plen ≤ 32 ∧ n.addr % n.size = 0 ∧ n.addr + n.size ≤ 2 ^ 32

instance (n : Net) : Decidable n.Valid :=
  inferInstanceAs (Decidable (n.plen ≤ 32 ∧ n.addr % n.size = 0 ∧ n.addr + n.size ≤ 2 ^ 32))

/-- Membership of an address in the block. -/
def Net.memb (n : Net) (a : Nat) : Prop := n.addr ≤ a ∧ a < n.addr + n.size

instance (n : Net) (a : Nat) : Decidable (n.memb a) :=
  inferInstanceAs (Decidable (n.addr ≤ a ∧ a < n.addr + n.size))

/-- IPv4Network.subnet_of, exactly as the library compares:
b.network_address <= a.network_address and a.broadcast_address <= b.broadcast_address. -/
def subnetOf (a b : Net) : Bool :=
  decide (b.addr ≤ a.addr) && decide (a.broadcast ≤ b.broadcast)

/-- Range containment between blocks, the arithmetic reading of subnet_of. -/
def Net.SubsetR (a b : Net) : Prop :=
  b.addr ≤ a.addr ∧ a.addr + a.size ≤ b.addr + b.size

instance (a b : Net) : Decidable (Net.SubsetR a b) :=
  inferInstanceAs (Decidable (b.addr ≤ a.addr ∧ a.addr + a.size ≤ b.addr + b.size))

/-- First element yielded by IPv4Network.subnets(): the lower half. -/
def Net.lower (n : Net) : Net := ⟨n.addr, n.plen + 1⟩

/-- Second element yielded by IPv4Network.subnets(): the upper half. -/
def Net.upper (n : Net) : Net := ⟨n.addr + 2 ^ (32 - (n.plen + 1)), n.plen + 1⟩

/-- Errors the route-exclusion computation can signal.  notContained is the
ValueError "not contained in" raised by address_exclude, which the
specification calls InvalidAddressError.  assertionFailed models the
AssertionError branches; outOfFuel pads the fuelled recursion and is shown
unreachable on valid inputs. -/
inductive ExcludeError
  | notContained
  | assertionFailed
  | outOfFuel
deriving DecidableEq, Repr

/-- The while loop of IPv4Network.address_exclude.  State (s1, s2) are the two
halves of the block currently being split; other is the hole.  Each iteration
yields the half not containing the hole and descends into the half containing
it; the loop exits by yielding the sibling when one half equals the hole. -/
def excludeLoop : Nat → Net → Net → Net → Except ExcludeError (List Net)
  | 0, _, _, _ => Except.error ExcludeError.outOfFuel
  | fuel + 1, s1, s2, other =>
    if s1 = other then Except.ok [s2]
    else if s2 = other then Except.ok [s1]
    else if subnetOf other s1 then
      (excludeLoop fuel s1.lower s1.upper other).map (fun rest => s2 :: rest)
    else if subnetOf other s2 then
      (excludeLoop fuel s2.lower s2.upper other).map (fun rest => s1 :: rest)
    else Except.error ExcludeError.assertionFailed

/-- IPv4Network.address_exclude: raise ValueError when the hole is not a
subnet of the universe, yield nothing when the hole equals the universe, and
otherwise run the splitting loop starting from the two halves of the universe.
The library renormalises the hole to (network_address, prefixlen) first, which
on the already-normalised representation used here is the identity. -/
def addressExclude (self other : Net) : Except ExcludeError (List Net) :=
  if ¬ subnetOf other self then Except.error ExcludeError.notContained
  else if other = self then Except.ok []
  else excludeLoop (other.plen + 1) self.lower self.upper other

/-- The universe ip_network(0.0.0.0/0) used by create_routed_connection. -/
def net0 : Net := ⟨0, 0⟩

/-- Bundle of correctness facts about the list produced by the exclusion loop
run below block p with hole other. -/
def LoopOK (p other : Net) (l : List Net) : Prop :=
  l.length = other.plen - p.plen ∧
  (∀ b ∈ l, b.Valid) ∧
  (∀ b ∈ l, b.SubsetR p) ∧
  (∀ a : Nat, (p.memb a ∧ ¬ other.memb a) ↔ ∃ b ∈ l, b.memb a) ∧
  List.Pairwise (fun x y => ∀ a : Nat, ¬ (x.memb a ∧ y.memb a)) l ∧
  (∀ i : Fin l.length, (l.get i).plen = p.plen + 1 + i.val)

/-- The two logical connection profiles managed by KillSwitchManager, standing
for the distinct default names KILLSWITCH_CONN_NAME and ROUTED_CONN_NAME.  The
constants module carrying the literal strings is not among the analysed
sources; only distinctness of the two names is used. -/
inductive CName
  | ks
  | routed
deriving DecidableEq, Repr

/-- A connection id reported by the network service client: one of the two
tracked names, or (Option.none) an id that is absent from the tracker, which
update_connection_status looks up, catches as KeyError and skips. -/
abbrev ConnId := Option CName

/-- One entry of interface_state_tracker: the dictionary with keys "exists"
and "is_running". -/
structure ProfileStatus where
  exists_ : Bool
  is_running : Bool
deriving DecidableEq, Repr

/-- interface_state_tracker: one entry per tracked connection name. -/
structure Tracker where
  ks : ProfileStatus
  routed : ProfileStatus
deriving DecidableEq, Repr

/-- The tracker as initialised in KillSwitchManager.__init__ before the first
refresh: both profiles absent and not running. -/
def initialTracker : Tracker := ⟨⟨false, false⟩, ⟨false, false⟩⟩

/-- Body of the first loop of update_connection_status: a connection id equal
to a tracked name marks that profile as existing; any other id is skipped. -/
def setExists (t : Tracker) (c : ConnId) : Tracker :=
  match c with
  | some CName.ks => { t with ks := { t.ks with exists_ := true } }
  | some CName.routed => { t with routed := { t.routed with exists_ := true } }
  | none => t

/-- Body of the second loop of update_connection_status: an active connection
id equal to a tracked name marks that profile as running. -/
def setRunning (t : Tracker) (c : ConnId) : Tracker :=
  match c with
  | some CName.ks => { t with ks := { t.ks with is_running := true } }
  | some CName.routed => { t with routed := { t.routed with is_running := true } }
  | none => t

/-- update_connection_status: reset all four flags to False, then walk
client.get_connections() setting exists and client.get_active_connections()
setting is_running. -/
def update_connection_status (all_conns active_conns : List ConnId) : Tracker :=
  active_conns.foldl setRunning (all_conns.foldl setExists initialTracker)

/-- State of the external network-configuration service as the client reports
it: the defined connections and the active connections. -/
structure Env where
  all_conns : List ConnId
  active_conns : List ConnId
deriving DecidableEq, Repr

/-- The tracker a refresh against service state e produces. -/
def trackerOf (e : Env) : Tracker :=
  update_connection_status e.all_conns e.active_conns

/-- Lookup interface_state_tracker[conn_name]. -/
def statusOf (t : Tracker) : CName → ProfileStatus
  | CName.ks => t.ks
  | CName.routed => t.routed

/-- The four mutating nmcli commands the manager issues: c a (add), c up,
c down, c delete. -/
inductive AdapterCmd
  | add (c : CName)
  | up (c : CName)
  | down (c : CName)
  | del (c : CName)
deriving DecidableEq, Repr

/-- Modelled from the spec: the effect on the external service state of a
mutating adapter call that completes successfully, per the Network Backend
Adapter contract (spec sections 4.3 and 6).  The external tool itself is not
part of the analysed sources.  add defines a profile, up activates it, down
deactivates it, delete removes the profile and any activation of it. -/
def applyCmd (e : Env) : AdapterCmd → Env
  | AdapterCmd.add c => { e with all_conns := some c :: e.all_conns }
  | AdapterCmd.up c => { e with active_conns := some c :: e.active_conns }
  | AdapterCmd.down c =>
      { e with active_conns := e.active_conns.filter (fun x => x ≠ some c) }
  | AdapterCmd.del c =>
      { all_conns := e.all_conns.filter (fun x => x ≠ some c),
        active_conns := e.active_conns.filter (fun x => x ≠ some c) }

/-- What subprocess.run returns to run_subprocess. -/
structure SubprocessOutput where
  returncode : Int
  stdout : String
  stderr : String
deriving DecidableEq, Repr

/-- The exception classes KillSwitchManager passes to run_subprocess. -/
inductive SubprocessExc
  | createKillswitchError
  | activateKillswitchError
  | dectivateKillswitchError
  | deleteKillswitchError
deriving DecidableEq, Repr

/-- run_subprocess: raise the supplied exception with the supplied message
exactly when the return code is neither 0 nor 10; otherwise return normally. -/
def run_subprocess (exception : SubprocessExc) (exception_msg : String)
    (out : SubprocessOutput) : Except (SubprocessExc × String) Unit :=
  if out.returncode ≠ 0 ∧ out.returncode ≠ 10 then
    Except.error (exception, exception_msg)
  else Except.ok ()

/-- Failures manage and its callees can surface.  unsupportedAction is
exceptions.KillswitchError("Incorrect option for killswitch manager");
invalidAddress is the ValueError from ip_network or address_exclude;
popFromEmptyList is the IndexError from list.pop on an empty list. -/
inductive KSFailure
  | unsupportedAction
  | invalidAddress
  | popFromEmptyList
deriving DecidableEq, Repr

/-- The server_ip argument of manage and create_routed_connection after
parsing: None, a single already-parsed network, or a list of them.  String
parsing by ip_network is outside the model; a bare address parses to a /32
host network. -/
inductive ServerInput
  | nullIp
  | single (n : Net)
  | multi (l : List Net)
deriving DecidableEq, Repr

/-- Result of an orchestrator step under the adapter-success semantics: the
resulting service state and the mutating commands issued, or a failure
carrying the state and commands at the point of raising. -/
abbrev StepResult := Except (KSFailure × Env × List AdapterCmd) (Env × List AdapterCmd)

/-- create_connection: refresh, then issue the add command only when the
profile does not exist. -/
def create_connection (e : Env) (conn_name : CName) : Env × List AdapterCmd :=
  if (statusOf (trackerOf e) conn_name).exists_ then (e, [])
  else (applyCmd e (AdapterCmd.add conn_name), [AdapterCmd.add conn_name])

/-- create_killswitch_connection builds the nmcli add command for the
kill-switch profile and hands it to create_connection. -/
def create_killswitch_connection (e : Env) : Env × List AdapterCmd :=
  create_connection e CName.ks

/-- activate_connection: refresh, then issue nmcli c up only when the profile
exists and is not already running. -/
def activate_connection (e : Env) (conn_name : CName) : Env × List AdapterCmd :=
  if (statusOf (trackerOf e) conn_name).exists_
      && !(statusOf (trackerOf e) conn_name).is_running then
    (applyCmd e (AdapterCmd.up conn_name), [AdapterCmd.up conn_name])
  else (e, [])

/-- deactivate_connection: refresh, then issue nmcli c down only when the
profile is running. -/
def deactivate_connection (e : Env) (conn_name : CName) : Env × List AdapterCmd :=
  if (statusOf (trackerOf e) conn_name).is_running then
    (applyCmd e (AdapterCmd.down conn_name), [AdapterCmd.down conn_name])
  else (e, [])

/-- delete_connection: refresh, then issue nmcli c delete only when the
profile exists. -/
def delete_connection (e : Env) (conn_name : CName) : Env × List AdapterCmd :=
  if (statusOf (trackerOf e) conn_name).exists_ then
    (applyCmd e (AdapterCmd.del conn_name), [AdapterCmd.del conn_name])
  else (e, [])

/-- delete_all_connections: delete the kill-switch profile, then the routed
profile. -/
def delete_all_connections (e : Env) : Env × List AdapterCmd :=
  let r1 := delete_connection e CName.ks
  let r2 := delete_connection r1.1 CName.routed
  (r2.1, r1.2 ++ r2.2)

/-- create_routed_connection: when server_ip is a list, pop its last element
(mutating the callers list); compute the route exclusion of the server network
from 0.0.0.0/0; on success hand the routed-profile add command to
create_connection.  The first component is the callers server_ip argument
after the call. -/
def create_routed_connection (e : Env) (server_ip : ServerInput) :
    ServerInput × StepResult :=
  match server_ip with
  | ServerInput.nullIp =>
      (ServerInput.nullIp, Except.error (KSFailure.invalidAddress, e, []))
  | ServerInput.single n =>
      (ServerInput.single n,
        match addressExclude net0 n with
        | Except.error _ => Except.error (KSFailure.invalidAddress, e, [])
        | Except.ok _ => Except.ok (create_connection e CName.routed))
  | ServerInput.multi l =>
      match l.getLast? with
      | none => (ServerInput.multi l, Except.error (KSFailure.popFromEmptyList, e, []))
      | some n =>
          (ServerInput.multi l.dropLast,
            match addressExclude net0 n with
            | Except.error _ => Except.error (KSFailure.invalidAddress, e, [])
            | Except.ok _ => Except.ok (create_connection e CName.routed))

/-- The pre_connection branch of manage: create the routed profile, then
deactivate the kill-switch profile. -/
def pre_connection (e : Env) (server_ip : ServerInput) :
    ServerInput × StepResult :=
  match create_routed_connection e server_ip with
  | (sip, Except.error err) => (sip, Except.error err)
  | (sip, Except.ok (e1, l1)) =>
      let r2 := deactivate_connection e1 CName.ks
      (sip, Except.ok (r2.1, l1 ++ r2.2))

/-- The post_connection branch of manage: activate the kill-switch profile,
then delete the routed profile. -/
def post_connection (e : Env) : Env × List AdapterCmd :=
  let r1 := activate_connection e CName.ks
  let r2 := delete_connection r1.1 CName.routed
  (r2.1, r1.2 ++ r2.2)

/-- Service states observed along post_connection: before the action, after
the activate step, after the delete step. -/
def post_connection_trace (e : Env) : List Env :=
  [e, (activate_connection e CName.ks).1,
   (delete_connection (activate_connection e CName.ks).1 CName.routed).1]

/-- The action strings manage dispatches on in connection-lifecycle mode. -/
def recognized_actions : List String :=
  ["pre_connection", "post_connection", "soft_connection", "disable"]

/-- manage with is_menu=False: dispatch on the action string; any other value
raises KillswitchError and issues no command.  The soft_connection branch
creates the kill-switch profile and performs the post_connection body, which
is exactly its recursive manage("post_connection") call. -/
def manage (e : Env) (action : String) (server_ip : ServerInput) :
    ServerInput × StepResult :=
  if action = "pre_connection" then pre_connection e server_ip
  else if action = "post_connection" then
    (server_ip, Except.ok (post_connection e))
  else if action = "soft_connection" then
    let r1 := create_killswitch_connection e
    let r2 := post_connection r1.1
    (server_ip, Except.ok (r2.1, r1.2 ++ r2.2))
  else if action = "disable" then
    (server_ip, Except.ok (delete_all_connections e))
  else
    (server_ip, Except.error (KSFailure.unsupportedAction, e, []))

/-- Modelled from the spec: the KillSwitchMode / KillswitchStatusEnum members
DISABLED, SOFT, HARD (spec section 3).  The enums module carrying the numeric
values is not among the analysed sources; Option.none below stands for an
integer action matching none of the members. -/
inductive KillswitchStatus
  | disabled
  | soft
  | hard
deriving DecidableEq, Repr

/-- manage with is_menu=True: HARD creates the kill-switch profile, SOFT and
DISABLED delete both profiles, anything else raises KillswitchError and
issues no command. -/
def manage_menu (e : Env) (action : Option KillswitchStatus) : StepResult :=
  match action with
  | some KillswitchStatus.hard => Except.ok (create_killswitch_connection e)
  | some KillswitchStatus.soft => Except.ok (delete_all_connections e)
  | some KillswitchStatus.disabled => Except.ok (delete_all_connections e)
  | none => Except.error (KSFailure.unsupportedAction, e, [])

theorem Net.size_pos (n : Net) : 0 < n.size :=
  Nat.pos_pow_of_pos _ (by norm_num)

theorem Net.size_split {n : Net} (h : n.plen < 32) :
    n.size = 2 * 2 ^ (32 - (n.plen + 1)) := by
  unfold Net.size
  rw [show 32 - n.plen = (32 - (n.plen + 1)) + 1 from by omega, pow_succ]
  ring

theorem subnetOf_iff (a b : Net) : subnetOf a b = true ↔ a.SubsetR b := by
  have ha := a.size_pos
  have hb := b.size_pos
  unfold subnetOf Net.SubsetR Net.broadcast
  simp only [Bool.and_eq_true, decide_eq_true_eq]
  omega

theorem Net.memb_subset {a b : Net} (h : a.SubsetR b) {x : Nat} (hx : a.memb x) :
    b.memb x := by
  unfold Net.SubsetR at h
  unfold Net.memb at hx ⊢
  omega

theorem Net.SubsetR.trans {a b c : Net} (h1 : a.SubsetR b) (h2 : b.SubsetR c) :
    a.SubsetR c := by
  unfold Net.SubsetR at h1 h2 ⊢
  omega

theorem Net.SubsetR.refl (a : Net) : a.SubsetR a := ⟨le_refl _, le_refl _⟩

theorem Net.lower_size (n : Net) : n.lower.size = 2 ^ (32 - (n.plen + 1)) := rfl

theorem Net.upper_size (n : Net) : n.upper.size = 2 ^ (32 - (n.plen + 1)) := rfl

theorem Net.lower_dvd_size {n : Net} (h : n.plen < 32) : n.lower.size ∣ n.size := by
  rw [n.size_split h, Net.lower_size]
  exact dvd_mul_left _ 2

theorem Net.lower_valid {n : Net} (hn : n.Valid) (h : n.plen < 32) :
    n.lower.Valid := by
  obtain ⟨h1, h2, h3⟩ := hn
  have hs := n.size_split h
  have hdvd : n.lower.size ∣ n.addr :=
    dvd_trans (n.lower_dvd_size h) (Nat.dvd_of_mod_eq_zero h2)
  refine ⟨show n.plen + 1 ≤ 32 from by omega, ?_, ?_⟩
  · exact Nat.dvd_iff_mod_eq_zero.1 hdvd
  · show n.lower.addr + n.lower.size ≤ 2 ^ 32
    have : n.lower.addr = n.addr := rfl
    rw [this, Net.lower_size]
    omega

theorem Net.upper_valid {n : Net} (hn : n.Valid) (h : n.plen < 32) :
    n.upper.Valid := by
  obtain ⟨h1, h2, h3⟩ := hn
  have hs := n.size_split h
  have hdvd : n.lower.size ∣ n.addr :=
    dvd_trans (n.lower_dvd_size h) (Nat.dvd_of_mod_eq_zero h2)
  have haddr : n.upper.addr = n.addr + 2 ^ (32 - (n.plen + 1)) := rfl
  refine ⟨show n.plen + 1 ≤ 32 from by omega, ?_, ?_⟩
  · refine Nat.dvd_iff_mod_eq_zero.1 ?_
    rw [haddr, Net.upper_size]
    exact Nat.dvd_add (by rw [← Net.lower_size]; exact hdvd) dvd_rfl
  · rw [haddr, Net.upper_size]
    omega

theorem Net.memb_split {n : Net} (h : n.plen < 32) (a : Nat) :
    n.memb a ↔ (n.lower.memb a ∨ n.upper.memb a) := by
  have hs := n.size_split h
  have hl : n.lower.size = 2 ^ (32 - (n.plen + 1)) := rfl
  have hu : n.upper.size = 2 ^ (32 - (n.plen + 1)) := rfl
  unfold Net.memb
  show n.addr ≤ a ∧ a < n.addr + n.size ↔
    (n.addr ≤ a ∧ a < n.addr + n.lower.size) ∨
    (n.addr + 2 ^ (32 - (n.plen + 1)) ≤ a ∧
      a < n.addr + 2 ^ (32 - (n.plen + 1)) + n.upper.size)
  rw [hl, hu, hs]
  omega

theorem Net.halves_disjoint (n : Net) (a : Nat) :
    ¬ (n.lower.memb a ∧ n.upper.memb a) := by
  have hl : n.lower.size = 2 ^ (32 - (n.plen + 1)) := rfl
  unfold Net.memb
  show ¬ ((n.addr ≤ a ∧ a < n.addr + n.lower.size) ∧
    (n.addr + 2 ^ (32 - (n.plen + 1)) ≤ a ∧ _))
  rw [hl]
  omega

theorem Net.lower_subset {n : Net} (h : n.plen < 32) : n.lower.SubsetR n := by
  have hs := n.size_split h
  have hl : n.lower.size = 2 ^ (32 - (n.plen + 1)) := rfl
  constructor
  · exact le_refl _
  · show n.addr + n.lower.size ≤ n.addr + n.size
    rw [hl, hs]; omega

theorem Net.upper_subset {n : Net} (h : n.plen < 32) : n.upper.SubsetR n := by
  have hs := n.size_split h
  have hu : n.upper.size = 2 ^ (32 - (n.plen + 1)) := rfl
  constructor
  · show n.addr ≤ n.addr + 2 ^ (32 - (n.plen + 1)); omega
  · show n.addr + 2 ^ (32 - (n.plen + 1)) + n.upper.size ≤ n.addr + n.size
    rw [hu, hs]; omega

theorem Net.plen_le {a b : Net} (ha : a.Valid) (hb : b.Valid)
    (hsub : a.SubsetR b) : b.plen ≤ a.plen := by
  have ha1 := ha.1
  have hb1 := hb.1
  by_contra hcon
  push_neg at hcon
  have hsize : a.size ≤ b.size := by
    obtain ⟨h1, h2⟩ := hsub
    have := a.size_pos
    have := b.size_pos
    omega
  have hlt : b.size < a.size := by
    unfold Net.size
    exact Nat.pow_lt_pow_right (by norm_num) (by omega)
  omega

theorem Net.eq_of_subset_plen {a b : Net} (hsub : a.SubsetR b)
    (hp : a.plen = b.plen) : a = b := by
  obtain ⟨h1, h2⟩ := hsub
  have hsz : a.size = b.size := by unfold Net.size; rw [hp]
  have haddr : a.addr = b.addr := by omega
  cases a with
  | mk aa ap =>
    cases b with
    | mk ba bp =>
      simp only [Net.mk.injEq]
      exact ⟨haddr, hp⟩

theorem Net.plen_lt {a b : Net} (ha : a.Valid) (hb : b.Valid)
    (hsub : a.SubsetR b) (hne : a ≠ b) : b.plen < a.plen := by
  rcases Nat.lt_or_ge b.plen a.plen with h | h
  · exact h
  · have := Net.plen_le ha hb hsub
    exact absurd (Net.eq_of_subset_plen hsub (by omega)) hne

theorem Net.half_choice {p o : Net} (hp : p.Valid) (ho : o.Valid)
    (hsub : o.SubsetR p) (hlt : p.plen < o.plen) :
    o.SubsetR p.lower ∨ o.SubsetR p.upper := by
  have h32 : p.plen < 32 := lt_of_lt_of_le hlt ho.1
  have hs := p.size_split h32
  have hl : p.lower.size = 2 ^ (32 - (p.plen + 1)) := rfl
  have hu : p.upper.size = 2 ^ (32 - (p.plen + 1)) := rfl
  set h : Nat := 2 ^ (32 - (p.plen + 1)) with hdef
  have hdvd_oh : o.size ∣ h := by
    rw [hdef]
    unfold Net.size
    exact pow_dvd_pow 2 (by omega)
  have hdvd_ph : h ∣ p.addr := by
    have : h ∣ p.size := by rw [hs]; exact dvd_mul_left _ 2
    exact dvd_trans this (Nat.dvd_of_mod_eq_zero hp.2.1)
  have hdvd_oa : o.size ∣ o.addr := Nat.dvd_of_mod_eq_zero ho.2.1
  have hboundary : o.addr + o.size ≤ p.addr + h ∨ p.addr + h ≤ o.addr := by
    by_contra hcon
    push_neg at hcon
    obtain ⟨hc1, hc2⟩ := hcon
    have hdvd_m : o.size ∣ (p.addr + h) := Nat.dvd_add (dvd_trans hdvd_oh hdvd_ph) hdvd_oh
    have hdvd_d : o.size ∣ (p.addr + h - o.addr) := Nat.dvd_sub' hdvd_m hdvd_oa
    have hpos : 0 < p.addr + h - o.addr := by omega
    have := Nat.le_of_dvd hpos hdvd_d
    omega
  obtain ⟨hsub1, hsub2⟩ := hsub
  rcases hboundary with hcase | hcase
  · left
    constructor
    · exact hsub1
    · show o.addr + o.size ≤ p.addr + p.lower.size
      rw [hl]; exact hcase
  · right
    constructor
    · exact hcase
    · show o.addr + o.size ≤ p.addr + h + p.upper.size
      rw [hu, ← hdef, hs] at *
      omega

theorem LoopOK_base_lower {p : Net} (hp : p.Valid) (h32 : p.plen < 32) :
    LoopOK p p.lower [p.upper] := by
  refine ⟨?_, ?_, ?_, ?_, ?_, ?_⟩
  · show 1 = p.lower.plen - p.plen
    show 1 = (p.plen + 1) - p.plen
    omega
  · intro b hb
    rw [List.mem_singleton] at hb
    subst hb
    exact Net.upper_valid hp h32
  · intro b hb
    rw [List.mem_singleton] at hb
    subst hb
    exact Net.upper_subset h32
  · intro a
    simp only [List.mem_singleton, exists_eq_left]
    constructor
    · rintro ⟨hmem, hno⟩
      rcases (Net.memb_split h32 a).1 hmem with h | h
      · exact absurd h hno
      · exact h
    · intro hu
      refine ⟨(Net.memb_split h32 a).2 (Or.inr hu), fun hl => ?_⟩
      exact Net.halves_disjoint p a ⟨hl, hu⟩
  · exact List.pairwise_singleton _ _
  · rintro ⟨iv, hi⟩
    simp only [List.length_singleton] at hi
    have : iv = 0 := by omega
    subst this
    show p.upper.plen = p.plen + 1 + 0
    rfl

theorem LoopOK_base_upper {p : Net} (hp : p.Valid) (h32 : p.plen < 32) :
    LoopOK p p.upper [p.lower] := by
  refine ⟨?_, ?_, ?_, ?_, ?_, ?_⟩
  · show 1 = p.upper.plen - p.plen
    show 1 = (p.plen + 1) - p.plen
    omega
  · intro b hb
    rw [List.mem_singleton] at hb
    subst hb
    exact Net.lower_valid hp h32
  · intro b hb
    rw [List.mem_singleton] at hb
    subst hb
    exact Net.lower_subset h32
  · intro a
    simp only [List.mem_singleton, exists_eq_left]
    constructor
    · rintro ⟨hmem, hno⟩
      rcases (Net.memb_split h32 a).1 hmem with h | h
      · exact h
      · exact absurd h hno
    · intro hl
      refine ⟨(Net.memb_split h32 a).2 (Or.inl hl), fun hu => ?_⟩
      exact Net.halves_disjoint p a ⟨hl, hu⟩
  · exact List.pairwise_singleton _ _
  · rintro ⟨iv, hi⟩
    simp only [List.length_singleton] at hi
    have : iv = 0 := by omega
    subst this
    show p.lower.plen = p.plen + 1 + 0
    rfl

theorem LoopOK_step_lower {p o : Net} {l : List Net} (hp : p.Valid)
    (h32 : p.plen < 32) (hsub : o.SubsetR p.lower) (ho : o.Valid)
    (hne : o ≠ p.lower) (hok : LoopOK p.lower o l) :
    LoopOK p o (p.upper :: l) := by
  obtain ⟨hlen, hval, hsubs, hunion, hpair, hget⟩ := hok
  have hlplen : p.lower.plen = p.plen + 1 := rfl
  have hplt : p.lower.plen < o.plen :=
    Net.plen_lt ho (Net.lower_valid hp h32) hsub hne
  rw [hlplen] at hplt
  refine ⟨?_, ?_, ?_, ?_, ?_, ?_⟩
  · show l.length + 1 = o.plen - p.plen
    rw [hlen, hlplen]
    omega
  · intro b hb
    rcases List.mem_cons.1 hb with h | h
    · subst h; exact Net.upper_valid hp h32
    · exact hval b h
  · intro b hb
    rcases List.mem_cons.1 hb with h | h
    · subst h; exact Net.upper_subset h32
    · exact (hsubs b h).trans (Net.lower_subset h32)
  · intro a
    constructor
    · rintro ⟨hmem, hno⟩
      rcases (Net.memb_split h32 a).1 hmem with h | h
      · obtain ⟨b, hb, hbm⟩ := (hunion a).1 ⟨h, hno⟩
        exact ⟨b, List.mem_cons_of_mem _ hb, hbm⟩
      · exact ⟨p.upper, List.mem_cons_self _ _, h⟩
    · rintro ⟨b, hb, hbm⟩
      rcases List.mem_cons.1 hb with h | h
      · subst h
        refine ⟨(Net.memb_split h32 a).2 (Or.inr hbm), fun hoa => ?_⟩
        exact Net.halves_disjoint p a ⟨Net.memb_subset hsub hoa, hbm⟩
      · obtain ⟨hla, hno⟩ := (hunion a).2 ⟨b, h, hbm⟩
        exact ⟨(Net.memb_split h32 a).2 (Or.inl hla), hno⟩
  · rw [List.pairwise_cons]
    refine ⟨fun y hy a hya => ?_, hpair⟩
    exact Net.halves_disjoint p a
      ⟨Net.memb_subset (hsubs y hy) hya.2, hya.1⟩
  · rintro ⟨iv, hi⟩
    cases iv with
    | zero =>
      show p.upper.plen = p.plen + 1 + 0
      rfl
    | succ j =>
      have hj : j < l.length := by
        simp only [List.length_cons] at hi
        omega
      have h5 : (l.get ⟨j, hj⟩).plen = p.lower.plen + 1 + j := hget ⟨j, hj⟩
      show (l.get ⟨j, hj⟩).plen = p.plen + 1 + (j + 1)
      rw [h5, hlplen]
      omega

theorem LoopOK_step_upper {p o : Net} {l : List Net} (hp : p.Valid)
    (h32 : p.plen < 32) (hsub : o.SubsetR p.upper) (ho : o.Valid)
    (hne : o ≠ p.upper) (hok : LoopOK p.upper o l) :
    LoopOK p o (p.lower :: l) := by
  obtain ⟨hlen, hval, hsubs, hunion, hpair, hget⟩ := hok
  have huplen : p.upper.plen = p.plen + 1 := rfl
  have hplt : p.upper.plen < o.plen :=
    Net.plen_lt ho (Net.upper_valid hp h32) hsub hne
  rw [huplen] at hplt
  refine ⟨?_, ?_, ?_, ?_, ?_, ?_⟩
  · show l.length + 1 = o.plen - p.plen
    rw [hlen, huplen]
    omega
  · intro b hb
    rcases List.mem_cons.1 hb with h | h
    · subst h; exact Net.lower_valid hp h32
    · exact hval b h
  · intro b hb
    rcases List.mem_cons.1 hb with h | h
    · subst h; exact Net.lower_subset h32
    · exact (hsubs b h).trans (Net.upper_subset h32)
  · intro a
    constructor
    · rintro ⟨hmem, hno⟩
      rcases (Net.memb_split h32 a).1 hmem with h | h
      · exact ⟨p.lower, List.mem_cons_self _ _, h⟩
      · obtain ⟨b, hb, hbm⟩ := (hunion a).1 ⟨h, hno⟩
        exact ⟨b, List.mem_cons_of_mem _ hb, hbm⟩
    · rintro ⟨b, hb, hbm⟩
      rcases List.mem_cons.1 hb with h | h
      · subst h
        refine ⟨(Net.memb_split h32 a).2 (Or.inl hbm), fun hoa => ?_⟩
        exact Net.halves_disjoint p a ⟨hbm, Net.memb_subset hsub hoa⟩
      · obtain ⟨hua, hno⟩ := (hunion a).2 ⟨b, h, hbm⟩
        exact ⟨(Net.memb_split h32 a).2 (Or.inr hua), hno⟩
  · rw [List.pairwise_cons]
    refine ⟨fun y hy a hya => ?_, hpair⟩
    exact Net.halves_disjoint p a
      ⟨hya.1, Net.memb_subset (hsubs y hy) hya.2⟩
  · rintro ⟨iv, hi⟩
    cases iv with
    | zero =>
      show p.lower.plen = p.plen + 1 + 0
      rfl
    | succ j =>
      have hj : j < l.length := by
        simp only [List.length_cons] at hi
        omega
      have h5 : (l.get ⟨j, hj⟩).plen = p.upper.plen + 1 + j := hget ⟨j, hj⟩
      show (l.get ⟨j, hj⟩).plen = p.plen + 1 + (j + 1)
      rw [h5, huplen]
      omega

theorem excludeLoop_ok (fuel : Nat) : ∀ (p o : Net), p.Valid → o.Valid →
    o.SubsetR p → o ≠ p → o.plen ≤ p.plen + fuel →
    ∃ l, excludeLoop fuel p.lower p.upper o = Except.ok l ∧ LoopOK p o l := by
  induction fuel with
  | zero =>
    intro p o hp ho hsub hne hle
    have := Net.plen_lt ho hp hsub hne
    omega
  | succ f ih =>
    intro p o hp ho hsub hne hle
    have hplt : p.plen < o.plen := Net.plen_lt ho hp hsub hne
    have h32 : p.plen < 32 := lt_of_lt_of_le hplt ho.1
    by_cases h1 : p.lower = o
    · subst h1
      refine ⟨[p.upper], ?_, LoopOK_base_lower hp h32⟩
      simp [excludeLoop]
    · by_cases h2 : p.upper = o
      · subst h2
        refine ⟨[p.lower], ?_, LoopOK_base_upper hp h32⟩
        simp [excludeLoop, h1]
      · by_cases hcl : o.SubsetR p.lower
        · have hbl : subnetOf o p.lower = true := (subnetOf_iff _ _).2 hcl
          have hne2 : o ≠ p.lower := fun he => h1 he.symm
          have hrec := ih p.lower o (Net.lower_valid hp h32) ho hcl hne2 (by
            show o.plen ≤ (p.plen + 1) + f
            omega)
          obtain ⟨l, hl, hok⟩ := hrec
          refine ⟨p.upper :: l, ?_, LoopOK_step_lower hp h32 hcl ho hne2 hok⟩
          simp [excludeLoop, h1, h2, hbl, hl, Except.map]
        · have hcu : o.SubsetR p.upper := by
            rcases Net.half_choice hp ho hsub hplt with h | h
            · exact absurd h hcl
            · exact h
          have hbl : subnetOf o p.lower = false := by
            rw [Bool.eq_false_iff]
            intro hb
            exact hcl ((subnetOf_iff _ _).1 hb)
          have hbu : subnetOf o p.upper = true := (subnetOf_iff _ _).2 hcu
          have hne2 : o ≠ p.upper := fun he => h2 he.symm
          have hrec := ih p.upper o (Net.upper_valid hp h32) ho hcu hne2 (by
            show o.plen ≤ (p.plen + 1) + f
            omega)
          obtain ⟨l, hl, hok⟩ := hrec
          refine ⟨p.lower :: l, ?_, LoopOK_step_upper hp h32 hcu ho hne2 hok⟩
          simp [excludeLoop, h1, h2, hbl, hbu, hl, Except.map]

theorem addressExclude_ok {U H : Net} (hU : U.Valid) (hH : H.Valid)
    (hsub : H.SubsetR U) (hne : H ≠ U) :
    ∃ l, addressExclude U H = Except.ok l ∧ LoopOK U H l := by
  have hb : subnetOf H U = true := (subnetOf_iff _ _).2 hsub
  have h := excludeLoop_ok (H.plen + 1) U H hU hH hsub hne (by omega)
  unfold addressExclude
  rw [hb]
  simp [hne]
  exact h

theorem foldl_setExists (all : List ConnId) (t : Tracker) :
    all.foldl setExists t =
      ⟨⟨t.ks.exists_ || decide (some CName.ks ∈ all), t.ks.is_running⟩,
       ⟨t.routed.exists_ || decide (some CName.routed ∈ all), t.routed.is_running⟩⟩ := by
  induction all generalizing t with
  | nil => simp
  | cons c rest ih =>
    rw [List.foldl_cons, ih]
    cases c with
    | none => simp [setExists, List.mem_cons]
    | some cn =>
      cases cn <;> simp [setExists, List.mem_cons, Bool.or_assoc]

theorem foldl_setRunning (active : List ConnId) (t : Tracker) :
    active.foldl setRunning t =
      ⟨⟨t.ks.exists_, t.ks.is_running || decide (some CName.ks ∈ active)⟩,
       ⟨t.routed.exists_, t.routed.is_running || decide (some CName.routed ∈ active)⟩⟩ := by
  induction active generalizing t with
  | nil => simp
  | cons c rest ih =>
    rw [List.foldl_cons, ih]
    cases c with
    | none => simp [setRunning, List.mem_cons]
    | some cn =>
      cases cn <;> simp [setRunning, List.mem_cons, Bool.or_assoc]

theorem update_connection_status_spec (all active : List ConnId) :
    update_connection_status all active =
      ⟨⟨decide (some CName.ks ∈ all), decide (some CName.ks ∈ active)⟩,
       ⟨decide (some CName.routed ∈ all), decide (some CName.routed ∈ active)⟩⟩ := by
  unfold update_connection_status
  rw [foldl_setExists, foldl_setRunning]
  simp [initialTracker]

theorem trackerOf_ks_exists (e : Env) :
    (trackerOf e).ks.exists_ = true ↔ some CName.ks ∈ e.all_conns := by
  rw [trackerOf, update_connection_status_spec]
  simp

theorem trackerOf_ks_running (e : Env) :
    (trackerOf e).ks.is_running = true ↔ some CName.ks ∈ e.active_conns := by
  rw [trackerOf, update_connection_status_spec]
  simp

theorem trackerOf_routed_exists (e : Env) :
    (trackerOf e).routed.exists_ = true ↔ some CName.routed ∈ e.all_conns := by
  rw [trackerOf, update_connection_status_spec]
  simp

theorem trackerOf_routed_running (e : Env) :
    (trackerOf e).routed.is_running = true ↔ some CName.routed ∈ e.active_conns := by
  rw [trackerOf, update_connection_status_spec]
  simp

/-- C1: for every universe U and hole H strictly inside U, the route
exclusion computation addressExclude succeeds; the union of its blocks is
exactly U minus H, the blocks are pairwise disjoint, H is contained in none
of them, and for the 32-bit address space (U the whole space, H a single
host) the sequence has at most 32 blocks. -/
theorem c1_route_exclusion_correct (U H : Net) (hU : U.Valid) (hH : H.Valid)
    (hin : subnetOf H U = true) (hne : H ≠ U) :
    ∃ l, addressExclude U H = Except.ok l ∧
      (∀ a : Nat, (∃ b ∈ l, b.memb a) ↔ (U.memb a ∧ ¬ H.memb a)) ∧
      List.Pairwise (fun x y => ∀ a : Nat, ¬ (x.memb a ∧ y.memb a)) l ∧
      (∀ b ∈ l, ¬ H.SubsetR b) ∧
      (U = net0 → H.plen = 32 → l.length ≤ 32) := by
  obtain ⟨l, hl, hlen, hval, hsubs, hunion, hpair, hget⟩ :=
    addressExclude_ok hU hH ((subnetOf_iff _ _).1 hin) hne
  refine ⟨l, hl, fun a => (hunion a).symm, hpair, ?_, ?_⟩
  · intro b hb hHb
    have hmemH : H.memb H.addr := ⟨le_refl _, by have := H.size_pos; omega⟩
    have hmemb : b.memb H.addr := Net.memb_subset hHb hmemH
    exact ((hunion H.addr).2 ⟨b, hb, hmemb⟩).2 hmemH
  · intro hU0 hH32
    rw [hlen, hH32, hU0]
    simp [net0]

/-- Witness for c1_route_exclusion_correct at the universe 0.0.0.0/0 and the
hole 203.0.113.5/32 (integer 3405803781). -/
theorem c1_route_exclusion_correct_witness :
    ∃ l, addressExclude net0 ⟨3405803781, 32⟩ = Except.ok l ∧
      (∀ a : Nat, (∃ b ∈ l, b.memb a) ↔
        (net0.memb a ∧ ¬ (⟨3405803781, 32⟩ : Net).memb a)) ∧
      List.Pairwise (fun x y => ∀ a : Nat, ¬ (x.memb a ∧ y.memb a)) l ∧
      (∀ b ∈ l, ¬ (⟨3405803781, 32⟩ : Net).SubsetR b) ∧
      (net0 = net0 → (⟨3405803781, 32⟩ : Net).plen = 32 → l.length ≤ 32) :=
  c1_route_exclusion_correct net0 ⟨3405803781, 32⟩ (by decide) (by decide)
    (by decide) (by decide)

/-- C5 (amended): the route exclusion computation emits its blocks from
widest (shortest prefix, farthest from the hole) to narrowest (longest
prefix, closest to the hole), and it is deterministic: identical inputs give
the identical ordered sequence. -/
theorem c5_emission_order (U H : Net) (hU : U.Valid) (hH : H.Valid)
    (hin : subnetOf H U = true) (hne : H ≠ U) :
    ∃ l, addressExclude U H = Except.ok l ∧
      List.Chain' (fun x y => x.plen < y.plen) l ∧
      addressExclude U H = addressExclude U H := by
  obtain ⟨l, hl, hlen, hval, hsubs, hunion, hpair, hget⟩ :=
    addressExclude_ok hU hH ((subnetOf_iff _ _).1 hin) hne
  refine ⟨l, hl, ?_, rfl⟩
  rw [List.chain'_iff_get]
  intro i hi
  have h1 : (l.get ⟨i, by omega⟩).plen = U.plen + 1 + i := hget ⟨i, by omega⟩
  have h2 : (l.get ⟨i + 1, by omega⟩).plen = U.plen + 1 + (i + 1) :=
    hget ⟨i + 1, by omega⟩
  rw [h1, h2]
  omega

/-- Witness for c5_emission_order at the universe 0.0.0.0/0 and the hole
203.0.113.5/32. -/
theorem c5_emission_order_witness :
    ∃ l, addressExclude net0 ⟨3405803781, 32⟩ = Except.ok l ∧
      List.Chain' (fun x y => x.plen < y.plen) l ∧
      addressExclude net0 ⟨3405803781, 32⟩ = addressExclude net0 ⟨3405803781, 32⟩ :=
  c5_emission_order net0 ⟨3405803781, 32⟩ (by decide) (by decide)
    (by decide) (by decide)

/-- Counterexample to C5 as stated: for the universe 0.0.0.0/29 and the hole
0.0.0.7/32 the computation emits [0.0.0.0/30, 0.0.0.4/31, 0.0.0.6/32], whose
prefix lengths strictly increase, so the emission order is not from narrowest
(longest prefix) to widest (shortest prefix). -/
theorem c5_order_counterexample :
    addressExclude ⟨0, 29⟩ ⟨7, 32⟩ =
      Except.ok [⟨0, 30⟩, ⟨4, 31⟩, ⟨6, 32⟩] ∧
    ¬ List.Chain' (fun x y => y.plen ≤ x.plen)
      [(⟨0, 30⟩ : Net), ⟨4, 31⟩, ⟨6, 32⟩] := by
  constructor
  · rfl
  · intro h
    rw [List.chain'_cons] at h
    have : (31 : Nat) ≤ 30 := h.1
    omega

theorem trackerOf_exists_iff (e : Env) (c : CName) :
    (statusOf (trackerOf e) c).exists_ = true ↔ some c ∈ e.all_conns := by
  cases c
  · exact trackerOf_ks_exists e
  · exact trackerOf_routed_exists e

theorem trackerOf_running_iff (e : Env) (c : CName) :
    (statusOf (trackerOf e) c).is_running = true ↔ some c ∈ e.active_conns := by
  cases c
  · exact trackerOf_ks_running e
  · exact trackerOf_routed_running e

theorem activate_ks_active (e : Env) (hks : some CName.ks ∈ e.all_conns) :
    some CName.ks ∈ (activate_connection e CName.ks).1.active_conns ∧
    (activate_connection e CName.ks).1.all_conns = e.all_conns := by
  unfold activate_connection
  by_cases hg : ((statusOf (trackerOf e) CName.ks).exists_
      && !(statusOf (trackerOf e) CName.ks).is_running) = true
  · rw [if_pos hg]
    exact ⟨List.mem_cons_self _ _, rfl⟩
  · rw [if_neg hg]
    have hex : (statusOf (trackerOf e) CName.ks).exists_ = true :=
      (trackerOf_exists_iff e CName.ks).2 hks
    simp only [hex, Bool.true_and, Bool.not_eq_true', Bool.not_eq_false] at hg
    exact ⟨(trackerOf_running_iff e CName.ks).1 hg, rfl⟩

theorem delete_connection_not_exists (e : Env) (c : CName) :
    some c ∉ (delete_connection e c).1.all_conns := by
  unfold delete_connection
  by_cases hg : (statusOf (trackerOf e) c).exists_ = true
  · rw [if_pos hg]
    intro hmem
    have := (List.mem_filter.1 hmem).2
    simp at this
  · rw [if_neg hg]
    intro hmem
    exact hg ((trackerOf_exists_iff e c).2 hmem)

theorem delete_connection_active_keep (e : Env) (c : CName) (x : ConnId)
    (hx : x ∈ e.active_conns) (hne : x ≠ some c) :
    x ∈ (delete_connection e c).1.active_conns := by
  unfold delete_connection
  by_cases hg : (statusOf (trackerOf e) c).exists_ = true
  · rw [if_pos hg]
    exact List.mem_filter.2 ⟨hx, by simp [hne]⟩
  · rw [if_neg hg]
    exact hx

/-- C2: run_subprocess raises the supplied typed failure exactly when the
return code is neither 0 nor 10; in particular a return code of 10 is treated
as success and never raises. -/
theorem c2_returncode_policy (exception : SubprocessExc) (msg : String)
    (out : SubprocessOutput) :
    ((∃ err, run_subprocess exception msg out = Except.error err) ↔
      (out.returncode ≠ 0 ∧ out.returncode ≠ 10)) ∧
    (out.returncode = 10 → run_subprocess exception msg out = Except.ok ()) := by
  constructor
  · constructor
    · rintro ⟨err, herr⟩
      by_cases hc : out.returncode ≠ 0 ∧ out.returncode ≠ 10
      · exact hc
      · rw [run_subprocess, if_neg hc] at herr
        exact Except.noConfusion herr
    · intro hc
      rw [run_subprocess, if_pos hc]
      exact ⟨_, rfl⟩
  · intro h10
    have hc : ¬ (out.returncode ≠ 0 ∧ out.returncode ≠ 10) := fun hc => hc.2 h10
    rw [run_subprocess, if_neg hc]

/-- Witness for c2_returncode_policy: return code 10 completes without
raising. -/
theorem c2_returncode_policy_witness :
    run_subprocess SubprocessExc.createKillswitchError "msg" ⟨10, "", ""⟩ =
      Except.ok () :=
  (c2_returncode_policy SubprocessExc.createKillswitchError "msg"
    ⟨10, "", ""⟩).2 rfl

/-- C3: when the kill-switch profile exists in the service state and
manage("post_connection") completes without error, the state a refresh then
reports has the routed profile gone and the kill-switch profile running. -/
theorem c3_post_connection_state (e : Env) (sip : ServerInput)
    (r : Env × List AdapterCmd)
    (hks : some CName.ks ∈ e.all_conns)
    (hdone : (manage e "post_connection" sip).2 = Except.ok r) :
    (trackerOf r.1).routed.exists_ = false ∧
    (trackerOf r.1).ks.is_running = true := by
  have hm : (manage e "post_connection" sip).2 =
      Except.ok (post_connection e) := rfl
  rw [hm] at hdone
  injection hdone with hr
  subst hr
  have hact := activate_ks_active e hks
  have hfin : (post_connection e).1 =
      (delete_connection (activate_connection e CName.ks).1 CName.routed).1 := rfl
  constructor
  · rw [hfin, Bool.eq_false_iff]
    intro htrue
    exact delete_connection_not_exists _ CName.routed
      ((trackerOf_routed_exists _).1 htrue)
  · rw [hfin]
    refine (trackerOf_ks_running _).2 ?_
    exact delete_connection_active_keep _ CName.routed _ hact.1 (by decide)

/-- Witness for c3_post_connection_state: a state where only the kill-switch
profile is defined and nothing is active. -/
theorem c3_post_connection_state_witness :
    (trackerOf (post_connection (Env.mk [some CName.ks] [])).1).routed.exists_ = false ∧
    (trackerOf (post_connection (Env.mk [some CName.ks] [])).1).ks.is_running = true :=
  c3_post_connection_state (Env.mk [some CName.ks] []) ServerInput.nullIp
    (post_connection (Env.mk [some CName.ks] [])) (by decide) rfl

/-- C6: during post_connection, starting from a state where the kill-switch
profile exists and the routed profile is active, every state along the call
sequence has at least one of the two profiles active: the activation of the
kill-switch profile is issued before the deletion of the routed profile. -/
theorem c6_no_unprotected_window (e : Env)
    (hks : some CName.ks ∈ e.all_conns)
    (hrouted : some CName.routed ∈ e.active_conns) :
    ∀ s ∈ post_connection_trace e,
      some CName.ks ∈ s.active_conns ∨ some CName.routed ∈ s.active_conns := by
  intro s hs
  have hact := activate_ks_active e hks
  unfold post_connection_trace at hs
  rcases List.mem_cons.1 hs with h | hs2
  · subst h
    exact Or.inr hrouted
  rcases List.mem_cons.1 hs2 with h | hs3
  · subst h
    exact Or.inl hact.1
  rcases List.mem_cons.1 hs3 with h | hs4
  · subst h
    exact Or.inl (delete_connection_active_keep _ CName.routed _ hact.1 (by decide))
  · exact absurd hs4 (List.not_mem_nil s)

/-- Witness for c6_no_unprotected_window: kill-switch defined, routed
active, instantiated at the intermediate state after the activate step. -/
theorem c6_no_unprotected_window_witness :
    some CName.ks ∈ (activate_connection
      (Env.mk [some CName.ks, some CName.routed] [some CName.routed])
      CName.ks).1.active_conns ∨
    some CName.routed ∈ (activate_connection
      (Env.mk [some CName.ks, some CName.routed] [some CName.routed])
      CName.ks).1.active_conns :=
  c6_no_unprotected_window
    (Env.mk [some CName.ks, some CName.routed] [some CName.routed])
    (by decide) (by decide)
    ((activate_connection
      (Env.mk [some CName.ks, some CName.routed] [some CName.routed])
      CName.ks).1)
    (by decide)

/-- Counterexample to C4 as stated: with the hole equal to the universe
(server address 0.0.0.0/0) the route exclusion computation returns the empty
sequence of blocks instead of failing with InvalidAddressError. -/
theorem c4_degenerate_counterexample :
    addressExclude net0 net0 = Except.ok [] ∧
    addressExclude net0 net0 ≠ Except.error ExcludeError.notContained := by
  constructor
  · rfl
  · show Except.ok ([] : List Net) ≠ Except.error ExcludeError.notContained
    exact fun h => Except.noConfusion h

/-- C4 (amended): the route exclusion computation fails with
InvalidAddressError exactly when the hole is not a subnet of the universe;
when the hole equals the universe it instead returns the empty sequence. -/
theorem c4_not_contained_error (U H : Net) (hU : U.Valid) (hH : H.Valid) :
    ((∃ err, addressExclude U H = Except.error err) ↔ subnetOf H U = false) ∧
    (H = U → addressExclude U H = Except.ok []) := by
  constructor
  · constructor
    · rintro ⟨err, herr⟩
      by_contra hcon
      have hb : subnetOf H U = true := by
        cases hcase : subnetOf H U with
        | false => exact absurd hcase hcon
        | true => rfl
      by_cases heq : H = U
      · subst heq
        rw [addressExclude, hb] at herr
        simp at herr
      · obtain ⟨l, hl, _⟩ :=
          addressExclude_ok hU hH ((subnetOf_iff _ _).1 hb) heq
        rw [hl] at herr
        exact Except.noConfusion herr
    · intro hfalse
      refine ⟨ExcludeError.notContained, ?_⟩
      rw [addressExclude, hfalse]
      simp
  · intro heq
    subst heq
    have hb : subnetOf H H = true := (subnetOf_iff _ _).2 (Net.SubsetR.refl H)
    rw [addressExclude, hb]
    simp

/-- Witness for c4_not_contained_error at the universe 0.0.0.0/0 and the hole
0.0.0.0/1. -/
theorem c4_not_contained_error_witness :
    ((∃ err, addressExclude net0 ⟨0, 1⟩ = Except.error err) ↔
      subnetOf ⟨0, 1⟩ net0 = false) ∧
    ((⟨0, 1⟩ : Net) = net0 → addressExclude net0 ⟨0, 1⟩ = Except.ok []) :=
  c4_not_contained_error net0 ⟨0, 1⟩ (by decide) (by decide)

/-- C7: when the freshly refreshed tracker already shows the desired state,
each guarded operation issues no adapter command and leaves the service state
unchanged: create when the profile exists, activate when it is running,
deactivate when it is not running, delete when it does not exist; and
disabling everything when neither profile exists issues no command and raises
no error. -/
theorem c7_refresh_noops (e : Env) (c : CName) (sip : ServerInput) :
    ((statusOf (trackerOf e) c).exists_ = true → create_connection e c = (e, [])) ∧
    ((statusOf (trackerOf e) c).is_running = true → activate_connection e c = (e, [])) ∧
    ((statusOf (trackerOf e) c).is_running = false → deactivate_connection e c = (e, [])) ∧
    ((statusOf (trackerOf e) c).exists_ = false → delete_connection e c = (e, [])) ∧
    ((statusOf (trackerOf e) CName.ks).exists_ = false →
      (statusOf (trackerOf e) CName.routed).exists_ = false →
      delete_all_connections e = (e, []) ∧
      manage e "disable" sip = (sip, Except.ok (e, []))) := by
  refine ⟨?_, ?_, ?_, ?_, ?_⟩
  · intro h
    rw [create_connection, if_pos h]
  · intro h
    rw [activate_connection, if_neg]
    simp [h]
  · intro h
    rw [deactivate_connection, if_neg]
    simp [h]
  · intro h
    rw [delete_connection, if_neg]
    simp [h]
  · intro h1 h2
    have hks : delete_connection e CName.ks = (e, []) := by
      rw [delete_connection, if_neg (by simp [h1])]
    have hrt : delete_connection e CName.routed = (e, []) := by
      rw [delete_connection, if_neg (by simp [h2])]
    have hall : delete_all_connections e = (e, []) := by
      simp [delete_all_connections, hks, hrt]
    refine ⟨hall, ?_⟩
    have hm : manage e "disable" sip =
        (sip, Except.ok (delete_all_connections e)) := rfl
    rw [hm, hall]

/-- Witness for c7_refresh_noops: a state with the kill-switch profile
defined and active for the first two conjuncts, and the empty state for the
rest. -/
theorem c7_refresh_noops_witness :
    create_connection (Env.mk [some CName.ks] [some CName.ks]) CName.ks =
      (Env.mk [some CName.ks] [some CName.ks], []) ∧
    activate_connection (Env.mk [some CName.ks] [some CName.ks]) CName.ks =
      (Env.mk [some CName.ks] [some CName.ks], []) ∧
    deactivate_connection (Env.mk [] []) CName.ks = (Env.mk [] [], []) ∧
    delete_connection (Env.mk [] []) CName.ks = (Env.mk [] [], []) ∧
    delete_all_connections (Env.mk [] []) = (Env.mk [] [], []) ∧
    manage (Env.mk [] []) "disable" ServerInput.nullIp =
      (ServerInput.nullIp, Except.ok (Env.mk [] [], [])) :=
  ⟨(c7_refresh_noops (Env.mk [some CName.ks] [some CName.ks]) CName.ks
      ServerInput.nullIp).1 (by decide),
   (c7_refresh_noops (Env.mk [some CName.ks] [some CName.ks]) CName.ks
      ServerInput.nullIp).2.1 (by decide),
   (c7_refresh_noops (Env.mk [] []) CName.ks ServerInput.nullIp).2.2.1 (by decide),
   (c7_refresh_noops (Env.mk [] []) CName.ks ServerInput.nullIp).2.2.2.1 (by decide),
   ((c7_refresh_noops (Env.mk [] []) CName.ks ServerInput.nullIp).2.2.2.2
      (by decide) (by decide)).1,
   ((c7_refresh_noops (Env.mk [] []) CName.ks ServerInput.nullIp).2.2.2.2
      (by decide) (by decide)).2⟩

/-- Counterexample to C8 as stated: refreshing against an external state that
reports the kill-switch connection active but not defined yields a tracker
entry with is_running true and exists false, violating the invariant. -/
theorem c8_invariant_counterexample :
    (update_connection_status [] [some CName.ks]).ks.is_running = true ∧
    (update_connection_status [] [some CName.ks]).ks.exists_ = false := by
  decide

/-- C8 (amended): for every refresh whose external active set is contained in
its external defined set, the resulting tracker satisfies the invariant
is_running implies exists for both tracked profiles. -/
theorem c8_invariant_of_active_subset (all active : List ConnId)
    (hsub : ∀ c, c ∈ active → c ∈ all) :
    ((update_connection_status all active).ks.is_running = true →
      (update_connection_status all active).ks.exists_ = true) ∧
    ((update_connection_status all active).routed.is_running = true →
      (update_connection_status all active).routed.exists_ = true) := by
  rw [update_connection_status_spec]
  constructor
  · intro h
    simp only [decide_eq_true_eq] at h ⊢
    exact hsub _ h
  · intro h
    simp only [decide_eq_true_eq] at h ⊢
    exact hsub _ h

/-- Witness for c8_invariant_of_active_subset: the kill-switch profile both
defined and active. -/
theorem c8_invariant_witness :
    ((update_connection_status [some CName.ks] [some CName.ks]).ks.is_running = true →
      (update_connection_status [some CName.ks] [some CName.ks]).ks.exists_ = true) ∧
    ((update_connection_status [some CName.ks] [some CName.ks]).routed.is_running = true →
      (update_connection_status [some CName.ks] [some CName.ks]).routed.exists_ = true) :=
  c8_invariant_of_active_subset [some CName.ks] [some CName.ks] (fun _ hc => hc)

/-- C10: calling create_routed_connection with a non-empty list uses the last
element of the list as the server address and pops it, so the callers list
afterwards is its dropLast, one element shorter, and the call otherwise
behaves exactly as if given that single last element. -/
theorem c10_pop_mutates_list (e : Env) (l : List Net) (h : l ≠ []) :
    (create_routed_connection e (ServerInput.multi l)).1 =
      ServerInput.multi l.dropLast ∧
    l.dropLast.length = l.length - 1 ∧
    (create_routed_connection e (ServerInput.multi l)).2 =
      (create_routed_connection e (ServerInput.single (l.getLast h))).2 := by
  have hlast : l.getLast? = some (l.getLast h) := List.getLast?_eq_getLast l h
  refine ⟨?_, List.length_dropLast l, ?_⟩
  · rw [create_routed_connection, hlast]
  · simp only [create_routed_connection, hlast]

/-- Witness for c10_pop_mutates_list on the two-element list
[0.0.0.0/32, 0.0.0.7/32]. -/
theorem c10_pop_mutates_list_witness :
    (create_routed_connection (Env.mk [] [])
        (ServerInput.multi [⟨0, 32⟩, ⟨7, 32⟩])).1 =
      ServerInput.multi [⟨0, 32⟩] ∧
    ([(⟨0, 32⟩ : Net), ⟨7, 32⟩] : List Net).dropLast.length =
      ([(⟨0, 32⟩ : Net), ⟨7, 32⟩] : List Net).length - 1 ∧
    (create_routed_connection (Env.mk [] [])
        (ServerInput.multi [⟨0, 32⟩, ⟨7, 32⟩])).2 =
      (create_routed_connection (Env.mk [] []) (ServerInput.single ⟨7, 32⟩)).2 :=
  c10_pop_mutates_list (Env.mk [] []) [⟨0, 32⟩, ⟨7, 32⟩] (by decide)

theorem pre_connection_not_unsupported (e : Env) (sip : ServerInput)
    (e2 : Env) (lg : List AdapterCmd)
    (h : (pre_connection e sip).2 =
      Except.error (KSFailure.unsupportedAction, e2, lg)) : False := by
  cases sip with
  | nullIp => simp [pre_connection, create_routed_connection] at h
  | single n =>
    cases haddr : addressExclude net0 n with
    | error err => simp [pre_connection, create_routed_connection, haddr] at h
    | ok l2 => simp [pre_connection, create_routed_connection, haddr] at h
  | multi l =>
    cases hlast : l.getLast? with
    | none => simp [pre_connection, create_routed_connection, hlast] at h
    | some n =>
      cases haddr : addressExclude net0 n with
      | error err =>
        simp [pre_connection, create_routed_connection, hlast, haddr] at h
      | ok l2 =>
        simp [pre_connection, create_routed_connection, hlast, haddr] at h

/-- C9: in both menu mode and connection-lifecycle mode, an action value that
is not one of the recognized actions makes manage raise the KillswitchError
for an unsupported action while issuing no adapter command and leaving the
service state unchanged; recognized actions never raise that error. -/
theorem c9_unsupported_action (e : Env) (action : String) (sip : ServerInput) :
    (action ∉ recognized_actions →
      manage e action sip =
        (sip, Except.error (KSFailure.unsupportedAction, e, []))) ∧
    (action ∈ recognized_actions →
      ∀ e2 lg, (manage e action sip).2 ≠
        Except.error (KSFailure.unsupportedAction, e2, lg)) ∧
    manage_menu e none = Except.error (KSFailure.unsupportedAction, e, []) ∧
    (∀ m : KillswitchStatus, ∃ r, manage_menu e (some m) = Except.ok r) := by
  refine ⟨?_, ?_, rfl, ?_⟩
  · intro hnr
    simp only [recognized_actions, List.mem_cons, List.not_mem_nil, or_false,
      not_or] at hnr
    obtain ⟨h1, h2, h3, h4⟩ := hnr
    rw [manage, if_neg h1, if_neg h2, if_neg h3, if_neg h4]
  · intro hr e2 lg h
    simp only [recognized_actions, List.mem_cons, List.not_mem_nil,
      or_false] at hr
    rcases hr with h1 | h1 | h1 | h1
    · subst h1
      have hpre : (manage e "pre_connection" sip).2 =
          (pre_connection e sip).2 := rfl
      rw [hpre] at h
      exact pre_connection_not_unsupported e sip e2 lg h
    · subst h1
      have hpost : (manage e "post_connection" sip).2 =
          Except.ok (post_connection e) := rfl
      rw [hpost] at h
      exact Except.noConfusion h
    · subst h1
      obtain ⟨r, hrr⟩ : ∃ r, (manage e "soft_connection" sip).2 = Except.ok r :=
        ⟨_, rfl⟩
      rw [hrr] at h
      exact Except.noConfusion h
    · subst h1
      obtain ⟨r, hrr⟩ : ∃ r, (manage e "disable" sip).2 = Except.ok r :=
        ⟨_, rfl⟩
      rw [hrr] at h
      exact Except.noConfusion h
  · intro m
    cases m
    · exact ⟨_, rfl⟩
    · exact ⟨_, rfl⟩
    · exact ⟨_, rfl⟩

/-- Witness for c9_unsupported_action: the unrecognized action "enable" and
the recognized action "post_connection". -/
theorem c9_unsupported_action_witness :
    manage (Env.mk [] []) "enable" ServerInput.nullIp =
      (ServerInput.nullIp,
        Except.error (KSFailure.unsupportedAction, Env.mk [] [], [])) ∧
    (∀ e2 lg, (manage (Env.mk [] []) "post_connection" ServerInput.nullIp).2 ≠
      Except.error (KSFailure.unsupportedAction, e2, lg)) :=
  ⟨(c9_unsupported_action (Env.mk [] []) "enable" ServerInput.nullIp).1
      (by decide),
   (c9_unsupported_action (Env.mk [] []) "post_connection"
      ServerInput.nullIp).2.1 (by decide)⟩
